import Mathlib

/-!
Shallow embedding of `tg_stats` (src/src/main.rs): a pipeline that filters
Telegram chat-export messages to a target local-calendar year, sums reactions,
ranks by total reactions, and renders deep links.

Machine integers are modelled as `Int`/`Nat` with explicit wrapping
(`% 2 ^ 32`) where Rust release-mode overflow semantics matter.  Strings are
modelled at the `List Char` level so that all definitions reduce in the kernel.
-/

namespace TgStats

/-! ## Rust integer parsing (`str::parse::<iN>()`)

Rust's `FromStr` for signed integers accepts an optional leading `+` or `-`
followed by one or more ASCII digits, and fails on overflow of the target
type.  We model the value as `Int` guarded by the type's bounds. -/

/-- Numeric value of a list of ASCII digit characters, most significant first. -/
def digitsVal (cs : List Char) : Nat :=
  cs.foldl (fun a c => a * 10 + (c.toNat - 48)) 0

/-- Model of Rust `str::parse` for a signed integer type with bounds
`[lo, hi]`: optional sign, at least one digit, all digits, no overflow. -/
def rustParseInt (lo hi : Int) (cs : List Char) : Option Int :=
  let signDigits : Bool × List Char :=
    match cs with
    | '+' :: rest => (false, rest)
    | '-' :: rest => (true, rest)
    | rest => (false, rest)
  let neg := signDigits.1
  let ds := signDigits.2
  if ds.isEmpty || !ds.all Char.isDigit then
    none
  else
    let v : Int := if neg then -(digitsVal ds : Int) else (digitsVal ds : Int)
    if lo ≤ v ∧ v ≤ hi then some v else none

/-- Rust `str::parse::<i32>()`. -/
def rustParseI32 (cs : List Char) : Option Int :=
  rustParseInt (-2147483648) 2147483647 cs

/-- Rust `str::parse::<i64>()`. -/
def rustParseI64 (cs : List Char) : Option Int :=
  rustParseInt (-9223372036854775808) 9223372036854775807 cs

/-! ## Timezone resolution (main.rs lines 71-83) -/

/-- Rust `String::replace(":", "")`: remove every colon.  (The source guards
the replace with a `contains(':')` check, which does not change the result.) -/
def stripColons (cs : List Char) : List Char :=
  cs.filter (fun c => c != ':')

/-- Two's-complement wrap into the `i32` range, Rust release-mode overflow
semantics for `i32` arithmetic. -/
def wrap32 (x : Int) : Int :=
  (x + 2147483648) % 4294967296 - 2147483648

/-- The seconds value `(tz_offset / 100) * 3600 + (tz_offset % 100) * 60`
computed by main.rs line 81 in `i32` arithmetic.  Rust `/` and `%` on `i32`
truncate toward zero, i.e. `Int.tdiv` / `Int.tmod`. -/
def computedOffsetSecs (n : Int) : Int :=
  wrap32 (n.tdiv 100 * 3600 + n.tmod 100 * 60)

/-- The two configuration errors of the timezone resolver. -/
inductive TzError where
  | invalidTimezoneFormat
  | invalidTimezoneOffset
deriving DecidableEq

/-- Timezone resolver (main.rs lines 71-83): strip colons, parse as `i32`,
convert packed-decimal hours/minutes to seconds, validate with
`FixedOffset::east_opt`, which accepts exactly `-86400 < secs < 86400`. -/
def resolveTimezone (s : String) : Except TzError Int :=
  match rustParseI32 (stripColons s.data) with
  | none => .error .invalidTimezoneFormat
  | some n =>
    let secs := computedOffsetSecs n
    if -86400 < secs ∧ secs < 86400 then .ok secs else .error .invalidTimezoneOffset

/-! ## Calendar conversion (chrono)

`NaiveDateTime::from_timestamp_opt(secs, 0)` succeeds exactly when the civil
date of `secs.div_euclid(86400)` days from the epoch lies in chrono's
`NaiveDate` range, `-262144-01-01` to `262143-12-31` in the proleptic
Gregorian calendar.  `DateTime::<Utc>::with_timezone(&tz).year()` is the civil
year of `secs + offset`. -/

/-- Civil (proleptic Gregorian) year of a day count from the Unix epoch,
Howard Hinnant's `civil_from_days` algorithm (the calendar chrono computes). -/
def civilYearOfDays (z : Int) : Int :=
  let era : Int := (z + 719468) / 146097
  let doe : Nat := (z + 719468 - era * 146097).toNat
  let yoe : Nat := (doe - doe / 1460 + doe / 36524 - doe / 146096) / 365
  let doy : Nat := doe - (365 * yoe + yoe / 4 - yoe / 100)
  let mp : Nat := (5 * doy + 2) / 153
  let m : Nat := if mp < 10 then mp + 3 else mp - 9
  (yoe : Int) + era * 400 + (if m ≤ 2 then 1 else 0)

/-- Day count from the epoch of `-262144-01-01`, chrono's `NaiveDate::MIN`. -/
def minDays : Int := -96465658

/-- Day count from the epoch of `262143-12-31`, chrono's `NaiveDate::MAX`. -/
def maxDays : Int := 95026601

/-- Model of `NaiveDateTime::from_timestamp_opt(secs, 0)`: `some secs` when
the civil date of `secs` is within chrono's `NaiveDate` range, else `none`.
The `NaiveDateTime` value is represented by its epoch-second count. -/
def fromTimestampOpt (secs : Int) : Option Int :=
  if minDays ≤ secs / 86400 ∧ secs / 86400 ≤ maxDays then some secs else none

/-- Local calendar year of a UTC instant under a fixed offset:
`dt_utc.with_timezone(&tz).year()`. -/
def localYear (secs off : Int) : Int :=
  civilYearOfDays ((secs + off) / 86400)

/-- Local calendar year when the timestamp is representable, `none` when
`from_timestamp_opt` fails. -/
def localYearOpt (secs off : Int) : Option Int :=
  match fromTimestampOpt secs with
  | none => none
  | some t => some (localYear t off)

/-! ## Data model (main.rs structs) -/

/-- One reaction entry; only `count : u32` matters to the core. -/
structure Reaction where
  count : Nat
deriving DecidableEq

/-- A raw exported message (`struct Message`).  The source field `r#type`
is named `type` here; serde defaults give `none` / `[]` / `""` for absent
fields. -/
structure Message where
  id : Int
  date_unixtime : Option String
  reactions : List Reaction
  type : String
deriving DecidableEq

/-- A processed message (`struct ProcessedMessage`).  The
`DateTime<FixedOffset>` field `date` is represented by the UTC epoch-second
instant together with the fixed offset in seconds. -/
structure ProcessedMessage where
  id : Int
  total_reactions : Nat
  date_secs : Int
  date_offset : Int
deriving DecidableEq

/-- The top-level export document (`struct ChatExport`). -/
structure ChatExport where
  name : Option String
  id : Int
  messages : List Message

/-- The `u32` sum of reaction counts computed at main.rs line 169.  A fold of
wrapping `u32` additions equals the mathematical sum reduced modulo `2 ^ 32`
(Rust release-mode semantics). -/
def sumReactionsU32 (rs : List Reaction) : Nat :=
  (rs.map Reaction.count).sum % 4294967296

/-! ## Message processing (main.rs lines 141-182) -/

/-- The per-record body of the `filter_map` closure in `process_messages`:
skip non-"message" records, parse the timestamp, convert to the local
timezone, test the local year, sum reactions, drop zero-reaction records. -/
def messageToProcessed (target_year : Int) (tz : Int) (msg : Message) : Option ProcessedMessage :=
  if msg.type ≠ "message" then none
  else
    match msg.date_unixtime with
    | none => none
    | some s =>
      match rustParseI64 s.data with
      | none => none
      | some unix_timestamp =>
        match fromTimestampOpt unix_timestamp with
        | none => none
        | some t =>
          if localYear t tz ≠ target_year then none
          else
            let total := sumReactionsU32 msg.reactions
            if total = 0 then none
            else some ⟨msg.id, total, t, tz⟩

/-- Rust `process_messages`: an order-preserving `filter_map` over the input. -/
def process_messages (messages : List Message) (target_year : Int) (tz : Int) :
    List ProcessedMessage :=
  messages.filterMap (messageToProcessed target_year tz)

/-! ## Ranking and rendering (main.rs lines 94-118) -/

/-- The comparator of main.rs line 94 as a boolean "may precede" relation:
`a` may come before `b` exactly when `b.total_reactions ≤ a.total_reactions`
(descending by total reactions). -/
def sortLE (a b : ProcessedMessage) : Bool :=
  decide (b.total_reactions ≤ a.total_reactions)

/-- The sort of main.rs line 94.  Rust `sort_by` is a stable sort; the stable
`sortLE`-ordered permutation of a list is unique, so `List.mergeSort` computes
the same list. -/
def rankMessages (ps : List ProcessedMessage) : List ProcessedMessage :=
  ps.mergeSort sortLE

/-- Truncation to the first `limit` elements (main.rs lines 97-100). -/
def topN (limit : Nat) (ps : List ProcessedMessage) : List ProcessedMessage :=
  (rankMessages ps).take limit

/-- Decimal character rendering of a signed integer, Rust `i64::to_string`. -/
def intChars (i : Int) : List Char :=
  if i < 0 then '-' :: Nat.toDigits 10 i.natAbs else Nat.toDigits 10 i.natAbs

/-- The "clean" channel id of main.rs lines 109-114: the decimal string with
a literal leading `-100` stripped when present, unchanged otherwise. -/
def cleanChannelId (channel_id : Int) : List Char :=
  let s := intChars channel_id
  if s.take 4 = ['-', '1', '0', '0'] then s.drop 4 else s

/-- The deep link of main.rs line 118. -/
def renderLink (channel_id msg_id : Int) : String :=
  String.mk ("https://t.me/c/".data ++ cleanChannelId channel_id ++ '/' :: intChars msg_id)

/-- The whole run after CLI parsing and JSON loading: resolve the timezone
(fatal on error, before any record is examined), process, sort, truncate,
and attach rank numbers and deep links.  Date-string formatting for display
is out of scope and not represented. -/
def runPipeline (tzStr : String) (year : Int) (limit : Nat) (e : ChatExport) :
    Except TzError (List (Nat × String × ProcessedMessage)) :=
  match resolveTimezone tzStr with
  | .error err => .error err
  | .ok tz =>
    let top := topN limit (process_messages e.messages year tz)
    .ok (top.enum.map (fun p => (p.1 + 1, renderLink e.id p.2.id, p.2)))

/-! ## Theorems -/

/-- A raw message at UTC epoch second 1704065400, i.e. 2023-12-31T23:30:00Z. -/
def boundaryMsg : Message := ⟨5, some "1704065400", [⟨2⟩], "message"⟩

/-- C1: year membership is decided on the offset-adjusted local calendar year,
not the UTC year: the message at 2023-12-31T23:30:00Z (epoch 1704065400) is
classified into year 2024 under offset +0300 (10800 s) and into year 2023
under offset +0000, and not conversely. -/
theorem c1_year_boundary_local :
    process_messages [boundaryMsg] 2024 10800 = [⟨5, 2, 1704065400, 10800⟩] ∧
    process_messages [boundaryMsg] 2023 10800 = [] ∧
    process_messages [boundaryMsg] 2023 0 = [⟨5, 2, 1704065400, 0⟩] ∧
    process_messages [boundaryMsg] 2024 0 = [] ∧
    localYear 1704065400 10800 = 2024 ∧
    localYear 1704065400 0 = 2023 := by
  decide

/-- C3 counterexample: it is not true that the epoch-to-calendar conversion
succeeds for every 64-bit-representable epoch value; at `i64::MAX` seconds,
`from_timestamp_opt` returns `None` and the record is excluded. -/
theorem c3_claim_false :
    ¬ (∀ secs : Int,
        -9223372036854775808 ≤ secs ∧ secs ≤ 9223372036854775807 →
          (fromTimestampOpt secs).isSome = true) :=
  fun h => absurd (h 9223372036854775807 (by decide)) (by decide)

/-- C3 amended: the conversion succeeds exactly for epoch seconds within
chrono's representable range `[-8334632851200, 8210298412799]` (UTC calendar
years -262144 to 262143), and on that range it is exact: the successful
value is the instant itself, and the local moment is obtained by adding the
fixed offset to it. -/
theorem c3_conversion_range :
    ∀ secs : Int,
      ((fromTimestampOpt secs).isSome = true ↔
        (-8334632851200 ≤ secs ∧ secs ≤ 8210298412799)) ∧
      (∀ off t : Int, fromTimestampOpt secs = some t →
        t = secs ∧ localYearOpt secs off = some (localYear secs off)) := by
  intro secs
  constructor
  · simp only [fromTimestampOpt, minDays, maxDays]
    split
    · rename_i h
      simp only [Option.isSome_some, true_iff]
      omega
    · rename_i h
      simp only [Option.isSome_none, Bool.false_eq_true, false_iff]
      omega
  · intro off t ht
    simp only [fromTimestampOpt] at ht
    split at ht
    · cases ht
      exact ⟨rfl, by simp [localYearOpt, fromTimestampOpt, *]⟩
    · cases ht

/-- C3 amended, witnessed at the epoch instant itself with offset 3600. -/
theorem c3_conversion_range_witness :
    (0 : Int) = 0 ∧ localYearOpt 0 3600 = some (localYear 0 3600) :=
  (c3_conversion_range 0).2 3600 0 (by decide)

/-- C9: the deep link is `https://t.me/c/{cleanId}/{messageId}` where
`cleanId` strips a literal leading `-100` from the decimal form of the
channel id when present and leaves it unchanged otherwise; in particular
channel `-1001234567890` links via `1234567890` and channel `987654321`
links via `987654321`. -/
theorem c9_deep_link :
    (∀ channel_id msg_id : Int,
        (renderLink channel_id msg_id).data =
          "https://t.me/c/".data ++ cleanChannelId channel_id ++ '/' :: intChars msg_id) ∧
    cleanChannelId (-1001234567890) = "1234567890".data ∧
    cleanChannelId 987654321 = "987654321".data ∧
    renderLink (-1001234567890) 42 = "https://t.me/c/1234567890/42" ∧
    renderLink 987654321 42 = "https://t.me/c/987654321/42" :=
  ⟨fun _ _ => rfl, by decide, by decide, by decide, by decide⟩

/-- C10: a sign-less digits-only specification such as "0300" is accepted by
the resolver (Rust `parse::<i32>` allows a missing sign) and treated as the
positive offset +0300. -/
theorem c10_unsigned_timezone :
    resolveTimezone "0300" = .ok 10800 ∧
    rustParseI32 (stripColons "0300".data) = some 300 ∧
    resolveTimezone "0300" = resolveTimezone "+0300" :=
  ⟨rfl, rfl, rfl⟩

/-- C2: a ProcessedMessage is produced from a raw record if and only if the
record's kind is exactly "message", its timestamp is present and parseable as
an `i64`, its local-timezone calendar year (defined, hence the timestamp
representable) equals the target year, and its computed total reaction count
is strictly positive; and the processor's output contains exactly the records
so produced. -/
theorem c2_processed_iff :
    (∀ (y tz : Int) (msg : Message),
      (∃ p, messageToProcessed y tz msg = some p) ↔
        (msg.type = "message" ∧
         ∃ s ts, msg.date_unixtime = some s ∧ rustParseI64 s.data = some ts ∧
           localYearOpt ts tz = some y ∧ 0 < sumReactionsU32 msg.reactions)) ∧
    (∀ (y tz : Int) (msgs : List Message) (p : ProcessedMessage),
      p ∈ process_messages msgs y tz ↔ ∃ msg ∈ msgs, messageToProcessed y tz msg = some p) := by
  constructor
  · intro y tz msg
    simp only [messageToProcessed, localYearOpt]
    by_cases hty : msg.type = "message"
    · simp only [hty, ne_eq, not_true_eq_false, if_false]
      cases hd : msg.date_unixtime with
      | none => simp [hd]
      | some s =>
        simp only [hd, Option.some.injEq]
        cases hp : rustParseI64 s.data with
        | none => simp [hp]
        | some ts =>
          cases hf : fromTimestampOpt ts with
          | none => simp [hp, hf]
          | some t =>
            by_cases hy : localYear t tz = y
            · by_cases hz : sumReactionsU32 msg.reactions = 0
              · simp [hp, hy, hz, hf]
              · simp [hp, hy, hz, hf, Nat.pos_of_ne_zero hz]
            · simp [hp, hy, hf]
    · simp [hty]
  · intro y tz msgs p
    simp [process_messages, List.mem_filterMap]

/-- A raw message in year 2024 (UTC) whose two u32 reaction counts
4294967295 and 2 overflow when summed in `u32`. -/
def overflowMsg : Message := ⟨77, some "1704067200", [⟨4294967295⟩, ⟨2⟩], "message"⟩

/-- C5 counterexample: the produced ProcessedMessage for `overflowMsg` has
`total_reactions = 1`, which is not the exact mathematical sum 4294967297 of
its reaction counts — the `u32` sum wraps modulo `2 ^ 32`. -/
theorem c5_wrap_counterexample :
    messageToProcessed 2024 0 overflowMsg = some ⟨77, 1, 1704067200, 0⟩ ∧
    (overflowMsg.reactions.map Reaction.count).sum = 4294967297 := by
  decide

/-- Any produced ProcessedMessage carries the wrapped u32 reaction sum, and
that sum is nonzero. -/
theorem messageToProcessed_total (y tz : Int) (msg : Message) (p : ProcessedMessage)
    (h : messageToProcessed y tz msg = some p) :
    p.total_reactions = sumReactionsU32 msg.reactions ∧ 0 < p.total_reactions := by
  simp only [messageToProcessed] at h
  split at h
  · cases h
  · split at h
    · cases h
    · split at h
      · cases h
      · split at h
        · cases h
        · split at h
          · cases h
          · split at h
            · cases h
            · rename_i hz
              cases h
              exact ⟨rfl, Nat.pos_of_ne_zero hz⟩

/-- C5 amended: `total_reactions` equals the sum of the reaction counts
reduced modulo `2 ^ 32` (u32 wrapping), hence the exact sum whenever that sum
is below `2 ^ 32`; it is strictly positive; an empty reactions sequence sums
to zero and the record is rejected; and reactions `[3, 0, 5]` yield
`total_reactions = 8`. -/
theorem c5_total_reactions_mod :
    (∀ (y tz : Int) (msg : Message) (p : ProcessedMessage),
        messageToProcessed y tz msg = some p →
          p.total_reactions = (msg.reactions.map Reaction.count).sum % 4294967296 ∧
          0 < p.total_reactions) ∧
    (∀ (y tz : Int) (msg : Message) (p : ProcessedMessage),
        messageToProcessed y tz msg = some p →
        (msg.reactions.map Reaction.count).sum < 4294967296 →
          p.total_reactions = (msg.reactions.map Reaction.count).sum) ∧
    (∀ (y tz : Int) (msg : Message),
        msg.reactions = [] → messageToProcessed y tz msg = none) ∧
    messageToProcessed 2024 0 ⟨10, some "1704067200", [⟨3⟩, ⟨0⟩, ⟨5⟩], "message"⟩ =
      some ⟨10, 8, 1704067200, 0⟩ := by
  refine ⟨?_, ?_, ?_, by decide⟩
  · intro y tz msg p h
    exact messageToProcessed_total y tz msg p h
  · intro y tz msg p h hlt
    have h1 := (messageToProcessed_total y tz msg p h).1
    simp only [sumReactionsU32] at h1
    rw [h1, Nat.mod_eq_of_lt hlt]
  · intro y tz msg hempty
    simp only [messageToProcessed, sumReactionsU32, hempty, List.map_nil, List.sum_nil,
      Nat.zero_mod, ite_true, if_true, ne_eq, ite_not]
    split
    · split
      · rfl
      · split
        · rfl
        · split
          · rfl
          · split <;> rfl
    · rfl

/-- C5 amended, witnessed on the `[3, 0, 5]` record: total 8 is the wrapped
sum and is positive. -/
theorem c5_total_reactions_mod_witness :
    (⟨10, 8, 1704067200, 0⟩ : ProcessedMessage).total_reactions =
      (((⟨10, some "1704067200", [⟨3⟩, ⟨0⟩, ⟨5⟩], "message"⟩ : Message)).reactions.map
        Reaction.count).sum % 4294967296 ∧
    0 < (⟨10, 8, 1704067200, 0⟩ : ProcessedMessage).total_reactions :=
  c5_total_reactions_mod.1 2024 0 ⟨10, some "1704067200", [⟨3⟩, ⟨0⟩, ⟨5⟩], "message"⟩
    ⟨10, 8, 1704067200, 0⟩ (by decide)

/-- C6: the resolver accepts the forms ±HHMM and ±HH:MM, and on every parsed
value `N` small enough to be written that way the computed offset is exactly
`(N / 100) * 3600 + (N % 100) * 60` seconds (truncating division, packed
decimal hours-and-minutes); witnessed on `+0300`, `+03:00`, `-0530`,
`-05:30`. -/
theorem c6_offset_formula :
    (∀ n : Int, n.natAbs ≤ 9999 →
        computedOffsetSecs n = n.tdiv 100 * 3600 + n.tmod 100 * 60) ∧
    resolveTimezone "+0300" = .ok 10800 ∧
    resolveTimezone "+03:00" = .ok 10800 ∧
    resolveTimezone "-0530" = .ok (-19800) ∧
    resolveTimezone "-05:30" = .ok (-19800) := by
  refine ⟨?_, rfl, rfl, rfl, rfl⟩
  intro n hn
  have hd : (n.tdiv 100).natAbs = n.natAbs / 100 := Int.natAbs_tdiv n 100
  have hsplit : 100 * n.tdiv 100 + n.tmod 100 = n := Int.tdiv_add_tmod n 100
  have hm : n.tmod 100 = n - 100 * n.tdiv 100 := by omega
  simp only [computedOffsetSecs, wrap32, hm]
  omega

/-- C6 witnessed at N = 300: the packed-decimal formula evaluates the offset. -/
theorem c6_offset_formula_witness :
    computedOffsetSecs 300 = Int.tdiv 300 100 * 3600 + Int.tmod 300 100 * 60 :=
  c6_offset_formula.1 300 (by decide)

/-- C8: the ranker returns at most `L` elements; `L = 0` yields the empty
list; and an `L` at least the number of processed messages returns the whole
sorted sequence, with no error case. -/
theorem c8_limit_truncation :
    (∀ (ps : List ProcessedMessage) (L : Nat), (topN L ps).length ≤ L) ∧
    (∀ ps : List ProcessedMessage, topN 0 ps = []) ∧
    (∀ (ps : List ProcessedMessage) (L : Nat), ps.length ≤ L → topN L ps = rankMessages ps) := by
  refine ⟨?_, ?_, ?_⟩
  · intro ps L
    simp [topN, List.length_take]
  · intro ps
    simp [topN]
  · intro ps L h
    have hlen : (rankMessages ps).length ≤ L := by
      simpa [rankMessages] using h
    simp [topN, List.take_of_length_le hlen]

/-- C8 witnessed: a limit of 5 returns the whole one-element processed list. -/
theorem c8_limit_truncation_witness :
    topN 5 [(⟨1, 2, 0, 0⟩ : ProcessedMessage)] = rankMessages [⟨1, 2, 0, 0⟩] :=
  c8_limit_truncation.2.2 [⟨1, 2, 0, 0⟩] 5 (by decide)

/-- C7: the resolver fails with InvalidTimezoneFormat exactly when the
colon-stripped string does not parse as an `i32`; given a parsed value it
fails with InvalidTimezoneOffset exactly when the computed seconds value is
outside the open range (-86400, 86400) accepted by `FixedOffset::east_opt`,
and succeeds with that value otherwise; and a resolver error aborts the run
before any record is examined, whatever the export contains. -/
theorem c7_timezone_errors :
    (∀ s : String,
        resolveTimezone s = .error .invalidTimezoneFormat ↔
          rustParseI32 (stripColons s.data) = none) ∧
    (∀ (s : String) (n : Int), rustParseI32 (stripColons s.data) = some n →
        ((resolveTimezone s = .error .invalidTimezoneOffset ↔
            (computedOffsetSecs n ≤ -86400 ∨ 86400 ≤ computedOffsetSecs n)) ∧
         (-86400 < computedOffsetSecs n ∧ computedOffsetSecs n < 86400 →
            resolveTimezone s = .ok (computedOffsetSecs n)))) ∧
    (∀ (s : String) (err : TzError) (year : Int) (limit : Nat) (e : ChatExport),
        resolveTimezone s = .error err → runPipeline s year limit e = .error err) := by
  refine ⟨?_, ?_, ?_⟩
  · intro s
    simp only [resolveTimezone]
    cases hp : rustParseI32 (stripColons s.data) with
    | none => simp
    | some n =>
      simp only
      split
      · simp
      · simp
  · intro s n hp
    simp only [resolveTimezone, hp]
    constructor
    · split
      · rename_i h
        constructor
        · intro hcontra
          cases hcontra
        · intro hout
          omega
      · rename_i h
        constructor
        · intro _
          omega
        · intro _
          rfl
    · intro hin
      split
      · rfl
      · rename_i h
        exact absurd hin h
  · intro s err year limit e h
    simp [runPipeline, h]

/-- C7 witnessed: `+9900` resolves to 356400 seconds, outside the valid
range, and a malformed specification aborts a run over a nonempty export. -/
theorem c7_timezone_errors_witness :
    (resolveTimezone "+9900" = .error .invalidTimezoneOffset ↔
      (computedOffsetSecs 9900 ≤ -86400 ∨ 86400 ≤ computedOffsetSecs 9900)) ∧
    runPipeline "abc" 2024 5 ⟨none, 1, [⟨5, some "1704065400", [⟨2⟩], "message"⟩]⟩ =
      .error .invalidTimezoneFormat :=
  ⟨(c7_timezone_errors.2.1 "+9900" 9900 (by decide)).1,
   c7_timezone_errors.2.2 "abc" .invalidTimezoneFormat 2024 5
     ⟨none, 1, [⟨5, some "1704065400", [⟨2⟩], "message"⟩]⟩ rfl⟩

/-- The sort relation is transitive. -/
theorem sortLE_trans : ∀ a b c : ProcessedMessage, sortLE a b → sortLE b c → sortLE a c := by
  intro a b c
  simp only [sortLE, decide_eq_true_eq]
  omega

/-- The sort relation is total. -/
theorem sortLE_total : ∀ a b : ProcessedMessage, sortLE a b || sortLE b a := by
  intro a b
  simp only [sortLE, Bool.or_eq_true, decide_eq_true_eq]
  omega

/-- C4: the ranked output is ordered by total reactions non-strictly
descending (strictly across distinct counts); any two surviving records in
input order with the second's count not larger stay in that order, so equal
counts keep their processor-output order; the processor is an
order-preserving filter, so two eligible input records with equal counts
appear in the ranked output in input order; and truncation takes a prefix,
never reordering.  Ties are therefore never reordered by id or date: the
comparator consults `total_reactions` only. -/
theorem c4_ranking_stable :
    (∀ ps : List ProcessedMessage,
        (rankMessages ps).Pairwise (fun a b => b.total_reactions ≤ a.total_reactions)) ∧
    (∀ (ps : List ProcessedMessage) (a b : ProcessedMessage),
        List.Sublist [a, b] ps → b.total_reactions ≤ a.total_reactions →
          List.Sublist [a, b] (rankMessages ps)) ∧
    (∀ (msgs pre mid post : List Message) (m1 m2 : Message) (y tz : Int)
        (p1 p2 : ProcessedMessage),
        msgs = pre ++ m1 :: (mid ++ m2 :: post) →
        messageToProcessed y tz m1 = some p1 →
        messageToProcessed y tz m2 = some p2 →
        p1.total_reactions = p2.total_reactions →
          List.Sublist [p1, p2] (rankMessages (process_messages msgs y tz))) ∧
    (∀ (ps : List ProcessedMessage) (L : Nat),
        List.IsPrefix (topN L ps) (rankMessages ps)) := by
  refine ⟨?_, ?_, ?_, ?_⟩
  · intro ps
    have h := List.sorted_mergeSort sortLE_trans sortLE_total ps
    exact h.imp (fun hab => by simpa [sortLE] using hab)
  · intro ps a b hsub hle
    exact List.pair_sublist_mergeSort sortLE_trans sortLE_total
      (by simpa [sortLE] using hle) hsub
  · intro msgs pre mid post m1 m2 y tz p1 p2 hdecomp h1 h2 heq
    have hsub : List.Sublist [p1, p2] (process_messages msgs y tz) := by
      subst hdecomp
      simp only [process_messages, List.filterMap_append, List.filterMap_cons, h1, h2]
      apply List.sublist_append_of_sublist_right
      exact List.Sublist.cons₂ p1
        (List.singleton_sublist.mpr (List.mem_append_right _ (List.mem_cons_self p2 _)))
    exact List.pair_sublist_mergeSort sortLE_trans sortLE_total
      (by simp [sortLE, heq]) hsub
  · intro ps L
    exact List.take_prefix L (rankMessages ps)

/-- A 2023 message with 2 reactions, earlier in the input. -/
def stableMsgA : Message := ⟨1, some "1672531200", [⟨2⟩], "message"⟩

/-- A 2023 message with reactions also totalling 2, later in the input. -/
def stableMsgB : Message := ⟨2, some "1672531300", [⟨1⟩, ⟨1⟩], "message"⟩

/-- C4 witnessed: two eligible messages with equal totals keep input order
through processing and ranking. -/
theorem c4_ranking_stable_witness :
    List.Sublist [(⟨1, 2, 1672531200, 0⟩ : ProcessedMessage), ⟨2, 2, 1672531300, 0⟩]
      (rankMessages (process_messages [stableMsgA, stableMsgB] 2023 0)) :=
  c4_ranking_stable.2.2.1 [stableMsgA, stableMsgB] [] [] [] stableMsgA stableMsgB 2023 0
    ⟨1, 2, 1672531200, 0⟩ ⟨2, 2, 1672531300, 0⟩ rfl (by decide) (by decide) rfl

end TgStats
